import Mathlib

/-!
# Verification of the `DrawSketchController` coordination layer

Shallow embedding of `src/Mod/Sketcher/Gui/DrawSketchController.h` (FreeCAD).

The controller is a C++ class template
`DrawSketchController<HandlerT, SelectModeT, PAutoConstraintSize, OnViewParametersT,
ConstructionMethodT>`.  The template parameters and the capability set the controller
consumes from its external collaborators (the handler, the mode table, and the
template-specialisable hook functions) are gathered in a `ControllerOps` record; the
mutable data members of the controller object live in `CState`.  Calls the controller
makes into the handler and into its own hooks are recorded as a `CtrlEvent` trace so
that ordering and replay-count properties can be stated.

The handler is an external collaborator: its internal state is an abstract type `H`,
and the primitives the controller invokes on it (`state`, `isState`, `isLastState`,
`mouseMove`, `preselectAtPoint`, `reset`, `updateCursor`, `continuousMode`,
`constructionMethod`) are fields of `ControllerOps`, exactly the capability set the
C++ code uses.  `Gui::EditableDatumLabel` (one on-view parameter control) is likewise
external; `DatumLabel` models precisely the part of its state the controller touches
(`isSet`, colour, activation, edit status, edited value, anchor points).
-/

set_option linter.unusedSectionVars false

namespace DrawSketchControllerModel

/-- Concrete select-mode enum used for concrete instantiations in witnesses and
counterexamples.  It mirrors a typical `SelectModeT` template argument: an ordered
sequence of construction states ending in the terminal state `End`
(`SelectModeT::End` in the source). -/
inductive SState where
  | First
  | Second
  | Third
  | End
  deriving DecidableEq

/-- Colour state of an `EditableDatumLabel`: the controller only ever assigns
`colorManager.dimConstrColor` (active) or `colorManager.dimConstrDeactivatedColor`. -/
inductive LabelColor where
  | activeColor
  | deactivatedColor
  deriving DecidableEq

/-- The slice of `Gui::EditableDatumLabel` state that `DrawSketchController` reads or
writes: the public `isSet` flag, activation status (`activate`/`deactivate`), edit
status and value (`startEdit`/`stopEdit`), the on-screen anchor points (`setPoints`)
and the colour (`setColor`).  A freshly constructed label (see `freshLabel`) starts
deactivated with the deactivated colour, as in `initNOnViewParameters`. -/
structure DatumLabel where
  isSet : Bool
  isActive : Bool
  isInEdit : Bool
  editValue : Int
  points : (Int × Int × Int) × (Int × Int × Int)
  deriving DecidableEq

/-- Colour is tracked separately so the record above stays close to the label's
lifecycle flags; bundled here for the full label state. -/
structure Label where
  core : DatumLabel
  color : LabelColor
  deriving DecidableEq

/-- State of a label as constructed by `initNOnViewParameters`:
`std::make_unique<Gui::EditableDatumLabel>(viewer, placement,
colorManager.dimConstrDeactivatedColor, true)` — not set, not active, not in edit. -/
def freshLabel : Label :=
  { core := { isSet := false, isActive := false, isInEdit := false, editValue := 0,
              points := ((0, 0, 0), (0, 0, 0)) },
    color := LabelColor.deactivatedColor }

instance : Inhabited Label := ⟨freshLabel⟩

/-- `EditableDatumLabel::stopEdit`. -/
def stopEditLbl (l : Label) : Label :=
  { l with core := { l.core with isInEdit := false } }

/-- `EditableDatumLabel::activate`. -/
def activateLbl (l : Label) : Label :=
  { l with core := { l.core with isActive := true } }

/-- `EditableDatumLabel::deactivate`. -/
def deactivateLbl (l : Label) : Label :=
  { l with core := { l.core with isActive := false } }

/-- `setPoints(Base::Vector3d(), Base::Vector3d())` — reset both anchor points. -/
def setPointsZero (l : Label) : Label :=
  { l with core := { l.core with points := ((0, 0, 0), (0, 0, 0)) } }

/-- `startEdit(0.0, keymanager.get())` — begin an edit with initial value zero. -/
def startEditZero (l : Label) : Label :=
  { l with core := { l.core with isInEdit := true, editValue := 0 } }

/-- `EditableDatumLabel::setColor`. -/
def setLabelColor (c : LabelColor) (l : Label) : Label :=
  { l with color := c }

/-- `DrawSketchController::unsetOnViewParameter`: clears `isSet` and reverts the
label to the deactivated colour. -/
def unsetOnViewParameter (l : Label) : Label :=
  setLabelColor LabelColor.deactivatedColor { l with core := { l.core with isSet := false } }

/-- The capability bundle the controller template consumes.  `H` is the handler's
state, `S` the `SelectModeT` construction-state enum, `Pos` the `Base::Vector2d`
position type.

* `state`, `isState`, `isLastState`, `getFirstState`, `continuousMode`,
  `constructionMethod`, `mouseMove`, `preselectAtPoint`, `reset`,
  `updateCursor` — the handler interface used by the controller.
* `endState` — the distinguished `SelectModeT::End` member.
* `modeSize` — `OnViewParametersT::size`, the mode table mapping a construction
  method to its on-view parameter count.
* `getState` — the specialisation interface `getState(int parameterindex)`; the
  in-file default is `fun h _ => getFirstState h` (`handler->getFirstState()`).
* `doEnforceControlParameters` — specialisation hook, in-file default is the
  identity (no-op on the position).
* `doChangeDrawSketchHandlerMode` — virtual hook, in-file default no-op.
* `adaptDrawingToOnViewParameterChange` — specialisation hook, in-file default
  no-op.
Hooks are modelled as acting on the handler/geometry state. -/
structure ControllerOps (H S Pos : Type) where
  state : H → S
  isState : H → S → Bool
  isLastState : H → Bool
  getFirstState : H → S
  continuousMode : H → Bool
  constructionMethod : H → Nat
  mouseMove : H → Pos → H
  preselectAtPoint : H → Pos → H
  reset : H → H
  updateCursor : H → H
  endState : S
  modeSize : Nat → Nat
  getState : H → Nat → S
  doEnforceControlParameters : Pos → Pos
  doChangeDrawSketchHandlerMode : H → H
  adaptDrawingToOnViewParameterChange : H → Nat → Int → H

/-- The in-file default of the `getState` specialisation point:
`return handler->getFirstState();`. -/
def defaultGetState {H S Pos : Type} (ops : ControllerOps H S Pos) : H → Nat → S :=
  fun h _ => ops.getFirstState h

/-- The mutable data members of `DrawSketchController` together with the bound
handler state. -/
structure CState (H Pos : Type) where
  handler : H
  init : Bool
  firstMoveInit : Bool
  prevCursorPosition : Pos
  lastControlEnforcedPosition : Pos
  onViewIndexWithFocus : Int
  nOnViewParameter : Nat
  onViewParameters : List Label
  deriving DecidableEq

/-- Trace of the calls the controller performs, used to state ordering and
replay-count properties.  `recomputeSlotCount` records the assignment of
`nOnViewParameter`; the remaining constructors are handler calls, hook
invocations and the spinbox focus grab. -/
inductive CtrlEvent (Pos : Type) where
  | recomputeSlotCount (n : Nat)
  | hookConstructionMethodChanged
  | updateCursor
  | reset
  | mouseMove (p : Pos)
  | preselectAtPoint (p : Pos)
  | hookChangeDSHMode
  | setFocusToSpinbox (i : Nat)
  | applyModeActivation
  deriving DecidableEq

/-- Recogniser for handler `mouseMove` replay events. -/
def isMouseMoveEvent {Pos : Type} : CtrlEvent Pos → Bool
  | CtrlEvent.mouseMove _ => true
  | _ => false

/-- Recogniser for handler `reset` events. -/
def isResetEvent {Pos : Type} : CtrlEvent Pos → Bool
  | CtrlEvent.reset => true
  | _ => false

/-- Recogniser for the first-movement activation branch marker. -/
def isApplyModeEvent {Pos : Type} : CtrlEvent Pos → Bool
  | CtrlEvent.applyModeActivation => true
  | _ => false

/-- Events that are calls into the handler or into the mode-transition hook of the
shared finish routine (used for the C2 ordering property). -/
def isFinishHandlerCall {Pos : Type} : CtrlEvent Pos → Bool
  | CtrlEvent.mouseMove _ => true
  | CtrlEvent.preselectAtPoint _ => true
  | CtrlEvent.hookChangeDSHMode => true
  | _ => false

/-- Number of handler `mouseMove` replays in a trace. -/
def countMouseMove {Pos : Type} (tr : List (CtrlEvent Pos)) : Nat :=
  tr.countP isMouseMoveEvent

variable {H S Pos : Type} [DecidableEq S]

/-- `isOnViewParameterOfCurrentMode(unsigned int)`:
`onviewparameterindex < onViewParameters.size() && getState(onviewparameterindex) ==
handler->state()`. -/
def isOnViewParameterOfCurrentMode (ops : ControllerOps H S Pos) (s : CState H Pos)
    (i : Nat) : Bool :=
  decide (i < s.onViewParameters.length)
    && decide (ops.getState s.handler i = ops.state s.handler)

/-- `setFocusToOnViewParameter(unsigned int)`: bounds-checked; in range it grabs
spinbox focus and records the index in `onViewIndexWithFocus`. -/
def setFocusToOnViewParameter (s : CState H Pos) (i : Nat) :
    CState H Pos × List (CtrlEvent Pos) :=
  if i < s.onViewParameters.length then
    ({ s with onViewIndexWithFocus := (i : Int) }, [CtrlEvent.setFocusToSpinbox i])
  else
    (s, [])

/-- The loop body of `setModeOnViewParameters`, one iteration per slot, threading
the `onViewIndexWithFocus` candidate and the `firstOfMode` flag exactly as the
C++ `for` loop does.  `belongs i` is `isOnViewParameterOfCurrentMode(i)` and
`deactAll` is `handler->state() == SelectMode::End`. -/
def setModeLoop (belongs : Nat → Bool) (deactAll : Bool) :
    Nat → List Label → Int → Bool → List Label × Int
  | _, [], focus, _ => ([], focus)
  | i, l :: rest, focus, firstOfMode =>
    if belongs i then
      let focus' : Int := if firstOfMode then (i : Int) else focus
      let l' := startEditZero (setPointsZero (activateLbl l))
      let r := setModeLoop belongs deactAll (i + 1) rest focus' false
      (l' :: r.1, r.2)
    else
      let l1 := stopEditLbl l
      let l' := if !l1.core.isSet || deactAll then deactivateLbl l1 else l1
      let r := setModeLoop belongs deactAll (i + 1) rest focus firstOfMode
      (l' :: r.1, r.2)

/-- `setModeOnViewParameters()`: resets the focus token to `-1`, then walks all
slots; slots not of the current construction state get `stopEdit` and are
deactivated when `!isSet || state == End`; slots of the current state are
activated, have their points reset and restart editing at `0.0`, with the first
of them receiving the focus token. -/
def setModeOnViewParameters (ops : ControllerOps H S Pos) (s : CState H Pos) :
    CState H Pos :=
  let r := setModeLoop (fun i => isOnViewParameterOfCurrentMode ops s i)
      (decide (ops.state s.handler = ops.endState)) 0 s.onViewParameters (-1) true
  { s with onViewParameters := r.1, onViewIndexWithFocus := r.2 }

/-- Body of the `while (index < onViewParameters.size())` scan of
`passFocusToNextOnViewParameter`, by structural recursion on the number of
remaining loop iterations: first scanned index that satisfies `belongs`. -/
def passFocusScanGo (belongs : Nat → Bool) : Nat → Nat → Option Nat
  | 0, _ => none
  | n + 1, index =>
    if belongs index then some index else passFocusScanGo belongs n (index + 1)

/-- The `while (index < onViewParameters.size())` scan of
`passFocusToNextOnViewParameter`: first index `≥ index` and `< len` that belongs
to the current state, `none` when the scan runs off the end.  The loop runs
exactly `len - index` times. -/
def passFocusScan (belongs : Nat → Bool) (len : Nat) (index : Nat) : Option Nat :=
  passFocusScanGo belongs (len - index) index

/-- `passFocusToNextOnViewParameter()`: starts at `onViewIndexWithFocus + 1`
(converted to unsigned), wraps to `0` only when that start is already past the
last slot, then scans forward once; on success it calls
`setFocusToOnViewParameter`. -/
def passFocusToNextOnViewParameter (ops : ControllerOps H S Pos) (s : CState H Pos) :
    CState H Pos × List (CtrlEvent Pos) :=
  let len := s.onViewParameters.length
  let index0 := (s.onViewIndexWithFocus + 1).toNat
  let index := if index0 ≥ len then 0 else index0
  match passFocusScan (fun j => isOnViewParameterOfCurrentMode ops s j) len index with
  | some j => setFocusToOnViewParameter s j
  | none => (s, [])

/-- `initNOnViewParameters(n)`: clears the slot vector and creates `n` fresh
`EditableDatumLabel`s (deactivated colour, auto distance). -/
def initNOnViewParameters (s : CState H Pos) (n : Nat) : CState H Pos :=
  { s with onViewParameters := List.replicate n freshLabel }

/-- `resetOnViewParameters()`: `initNOnViewParameters(nOnViewParameter)`, focus
token to `0`, then `configureOnViewParameters()` (in-file default no-op). -/
def resetOnViewParameters (s : CState H Pos) : CState H Pos :=
  { initNOnViewParameters s s.nOnViewParameter with onViewIndexWithFocus := 0 }

/-- `resetControls()`: `doResetControls()` (in-file default calls
`resetOnViewParameters`), then clears the first-movement flag. -/
def resetControls (s : CState H Pos) : CState H Pos :=
  { resetOnViewParameters s with firstMoveInit := false }

/-- `initControls(widget)`: `doInitControls` (default no-op), `resetControls()`,
then `init = true`. -/
def initControls (s : CState H Pos) : CState H Pos :=
  { resetControls s with init := true }

/-- `mouseMoved(position)`: `onMouseMoved` (in-file default: on the first movement
only, re-apply `setModeOnViewParameters`; the position argument is unused), then
mark the first movement as done. -/
def mouseMoved (ops : ControllerOps H S Pos) (s : CState H Pos) (_pos : Pos) :
    CState H Pos × List (CtrlEvent Pos) :=
  let r :=
    if !s.firstMoveInit then
      (setModeOnViewParameters ops s, [CtrlEvent.applyModeActivation])
    else
      (s, [])
  let s1 := r.1
  let s2 := if !s1.firstMoveInit then { s1 with firstMoveInit := true } else s1
  (s2, r.2)

/-- `enforceControlParameters(position&)`: record the raw position in
`prevCursorPosition`, let the enforcement hook rewrite the position, record the
result in `lastControlEnforcedPosition`, then `afterEnforceControlParameters`
(in-file default: when a focus index is tracked, `setFocusToOnViewParameter` at
it). -/
def enforceControlParameters (ops : ControllerOps H S Pos) (s : CState H Pos)
    (pos : Pos) : CState H Pos × List (CtrlEvent Pos) :=
  let s1 := { s with prevCursorPosition := pos }
  let pos2 := ops.doEnforceControlParameters pos
  let s2 := { s1 with lastControlEnforcedPosition := pos2 }
  if 0 ≤ s2.onViewIndexWithFocus then
    setFocusToOnViewParameter s2 s2.onViewIndexWithFocus.toNat
  else
    (s2, [])

/-- `onConstructionMethodChanged()`: recompute `nOnViewParameter` from the mode
table for the handler's (new) construction method, `doConstructionMethodChanged`
(default no-op), `handler->updateCursor()`, `handler->reset()`, then replay
`handler->mouseMove(prevCursorPosition)`. -/
def onConstructionMethodChanged (ops : ControllerOps H S Pos) (s : CState H Pos) :
    CState H Pos × List (CtrlEvent Pos) :=
  let n := ops.modeSize (ops.constructionMethod s.handler)
  let s1 := { s with nOnViewParameter := n }
  let h1 := ops.updateCursor s1.handler
  let h2 := ops.reset h1
  let h3 := ops.mouseMove h2 s1.prevCursorPosition
  ({ s1 with handler := h3 },
   [CtrlEvent.recomputeSlotCount n, CtrlEvent.hookConstructionMethodChanged,
    CtrlEvent.updateCursor, CtrlEvent.reset,
    CtrlEvent.mouseMove s1.prevCursorPosition])

/-- `finishControlsChanged()`: replay `mouseMove(prevCursorPosition)`, snapshot
`currentstate = handler->state()`, `preselectAtPoint(lastControlEnforcedPosition)`,
`doChangeDrawSketchHandlerMode()`, and replay once more when
`!isLastState() && state() != currentstate && firstMoveInit`. -/
def finishControlsChanged (ops : ControllerOps H S Pos) (s : CState H Pos) :
    CState H Pos × List (CtrlEvent Pos) :=
  let h1 := ops.mouseMove s.handler s.prevCursorPosition
  let currentstate := ops.state h1
  let h2 := ops.preselectAtPoint h1 s.lastControlEnforcedPosition
  let h3 := ops.doChangeDrawSketchHandlerMode h2
  let base : List (CtrlEvent Pos) :=
    [CtrlEvent.mouseMove s.prevCursorPosition,
     CtrlEvent.preselectAtPoint s.lastControlEnforcedPosition,
     CtrlEvent.hookChangeDSHMode]
  if !ops.isLastState h3 && decide (ops.state h3 ≠ currentstate) && s.firstMoveInit then
    ({ s with handler := ops.mouseMove h3 s.prevCursorPosition },
     base ++ [CtrlEvent.mouseMove s.prevCursorPosition])
  else
    ({ s with handler := h3 }, base)

/-- `onViewValueChanged(onviewparameterindex, value)`: when slot
`onviewparameterindex + 1` is of the current construction state, give it the
focus; then `adaptDrawingToOnViewParameterChange` (specialisation hook, default
no-op) and `finishControlsChanged()`. -/
def onViewValueChanged (ops : ControllerOps H S Pos) (s : CState H Pos)
    (i : Nat) (v : Int) : CState H Pos × List (CtrlEvent Pos) :=
  let r1 :=
    if isOnViewParameterOfCurrentMode ops s (i + 1) then
      setFocusToOnViewParameter s (i + 1)
    else
      (s, ([] : List (CtrlEvent Pos)))
  let s1 := r1.1
  let s2 := { s1 with handler := ops.adaptDrawingToOnViewParameterChange s1.handler i v }
  let r2 := finishControlsChanged ops s2
  (r2.1, r1.2 ++ r2.2)

/-- `onHandlerModeChanged()`: `setModeOnViewParameters()`. -/
def onHandlerModeChanged (ops : ControllerOps H S Pos) (s : CState H Pos) :
    CState H Pos :=
  setModeOnViewParameters ops s

/-- `afterHandlerModeChanged()`: replay `mouseMove(prevCursorPosition)` when
`!handler->isState(SelectModeT::End) || handler->continuousMode`. -/
def afterHandlerModeChanged (ops : ControllerOps H S Pos) (s : CState H Pos) :
    CState H Pos × List (CtrlEvent Pos) :=
  if !ops.isState s.handler ops.endState || ops.continuousMode s.handler then
    ({ s with handler := ops.mouseMove s.handler s.prevCursorPosition },
     [CtrlEvent.mouseMove s.prevCursorPosition])
  else
    (s, [])

/-- Iterated `mouseMoved` over a list of positions, counting how many calls took
the first-movement branch (for the C8 claim). -/
def mouseMovedSeq (ops : ControllerOps H S Pos) (s : CState H Pos) :
    List Pos → CState H Pos × Nat
  | [] => (s, 0)
  | p :: ps =>
    let r := mouseMoved ops s p
    let rest := mouseMovedSeq ops r.1 ps
    (rest.1, r.2.countP isApplyModeEvent + rest.2)

/-- Slot accessed by index, defaulting to a fresh label out of range (used only in
statements; every use is guarded by an in-range hypothesis). -/
def slotAt (s : CState H Pos) (i : Nat) : Label :=
  s.onViewParameters.getD i freshLabel

/-! ## Concrete instantiations for witnesses and counterexamples -/

/-- Concrete position type: an integer `Base::Vector2d`. -/
abbrev CPos := Int × Int

/-- Successor on the concrete construction states, used by handlers whose
`mouseMove` advances the state machine. -/
def advanceS : SState → SState
  | SState.First => SState.Second
  | SState.Second => SState.Third
  | SState.Third => SState.End
  | SState.End => SState.End

/-- Concrete instantiation: the handler state is its construction state, every
handler call leaves it unchanged, and all specialisation points are the in-file
defaults (`getState` is `getFirstState`, the hooks are no-ops). -/
def opsU : ControllerOps SState SState CPos where
  state := fun h => h
  isState := fun h st => decide (h = st)
  isLastState := fun h => decide (h = SState.End)
  getFirstState := fun _ => SState.First
  continuousMode := fun _ => false
  constructionMethod := fun _ => 0
  mouseMove := fun h _ => h
  preselectAtPoint := fun h _ => h
  reset := fun _ => SState.First
  updateCursor := fun h => h
  endState := SState.End
  modeSize := fun _ => 2
  getState := fun _ _ => SState.First
  doEnforceControlParameters := fun p => p
  doChangeDrawSketchHandlerMode := fun h => h
  adaptDrawingToOnViewParameterChange := fun h _ _ => h

/-- Like `opsU` but the handler's `mouseMove` advances the construction state
(a handler whose movement logic completes the current step). -/
def opsA : ControllerOps SState SState CPos :=
  { opsU with mouseMove := fun h _ => advanceS h }

/-- Like `opsU` but with a specialised `getState` mapping: slot 0 belongs to the
first construction state and every later slot to the second, as in a tool whose
second step owns the remaining on-view parameters. -/
def opsNU : ControllerOps SState SState CPos :=
  { opsU with getState := fun _ i => if i = 0 then SState.First else SState.Second }

/-- Concrete controller state: two slots, handler in the first state, focus on
slot 0, first movement already performed. -/
def sTwo : CState SState CPos :=
  { handler := SState.First, init := true, firstMoveInit := true,
    prevCursorPosition := (1, 2), lastControlEnforcedPosition := (3, 4),
    onViewIndexWithFocus := 0, nOnViewParameter := 2,
    onViewParameters := [freshLabel, freshLabel] }

/-- Concrete controller state with an empty slot sequence. -/
def sEmpty : CState SState CPos :=
  { sTwo with nOnViewParameter := 0, onViewParameters := [] }

/-- Concrete controller state: three slots, focus on slot 1. -/
def sThree : CState SState CPos :=
  { sTwo with
    nOnViewParameter := 3
    onViewIndexWithFocus := 1
    onViewParameters := [freshLabel, freshLabel, freshLabel] }

/-! ## C9 -/

/-- C9: for every index `i` at or beyond the current slot count, the index-based
focus operations are bounds-checked no-ops: `setFocusToOnViewParameter i` changes
neither the focus token nor any slot (the state and trace are untouched), and
`isOnViewParameterOfCurrentMode i` returns `false`; both are total, also on an
empty slot sequence. -/
theorem setFocusToOnViewParameter_out_of_range_noop (ops : ControllerOps H S Pos)
    (s : CState H Pos) (i : Nat) (h : s.onViewParameters.length ≤ i) :
    setFocusToOnViewParameter s i = (s, []) ∧
    isOnViewParameterOfCurrentMode ops s i = false := by
  have hlt : ¬ i < s.onViewParameters.length := by omega
  refine ⟨?_, ?_⟩
  · simp [setFocusToOnViewParameter, hlt]
  · simp [isOnViewParameterOfCurrentMode, hlt]

/-- Witness for C9 at a concrete out-of-range index on an empty slot set. -/
theorem setFocusToOnViewParameter_out_of_range_noop_witness :
    setFocusToOnViewParameter sEmpty 0 = (sEmpty, []) ∧
    isOnViewParameterOfCurrentMode opsU sEmpty 0 = false :=
  setFocusToOnViewParameter_out_of_range_noop opsU sEmpty 0 (by decide)

/-! ## C10 -/

/-- C10: `afterHandlerModeChanged` replays the last recorded raw pointer position
through the handler's `mouseMove` if and only if the handler is not in the
terminal `End` state or its continuous-mode flag is set; when the handler is in
the `End` state with continuous mode off, it performs no action at all (state and
trace unchanged). -/
theorem afterHandlerModeChanged_replay_iff (ops : ControllerOps H S Pos)
    (s : CState H Pos) :
    ((afterHandlerModeChanged ops s).2 = [CtrlEvent.mouseMove s.prevCursorPosition] ↔
      (ops.isState s.handler ops.endState = false ∨
        ops.continuousMode s.handler = true)) ∧
    (ops.isState s.handler ops.endState = true →
      ops.continuousMode s.handler = false →
      afterHandlerModeChanged ops s = (s, [])) := by
  by_cases hEnd : ops.isState s.handler ops.endState = true
  · by_cases hCont : ops.continuousMode s.handler = true
    · refine ⟨?_, fun _ h2 => ?_⟩
      · simp [afterHandlerModeChanged, hEnd, hCont]
      · rw [hCont] at h2; cases h2
    · have hCont' : ops.continuousMode s.handler = false := by
        simpa using hCont
      refine ⟨?_, fun _ _ => ?_⟩
      · simp [afterHandlerModeChanged, hEnd, hCont']
      · simp [afterHandlerModeChanged, hEnd, hCont']
  · have hEnd' : ops.isState s.handler ops.endState = false := by simpa using hEnd
    refine ⟨?_, fun h1 _ => ?_⟩
    · simp [afterHandlerModeChanged, hEnd']
    · rw [hEnd'] at h1; cases h1

/-- Witness for C10: a handler in the terminal state with continuous mode off, on
which `afterHandlerModeChanged` does nothing. -/
theorem afterHandlerModeChanged_replay_iff_witness :
    afterHandlerModeChanged opsU { sTwo with handler := SState.End } =
      ({ sTwo with handler := SState.End }, []) :=
  (afterHandlerModeChanged_replay_iff opsU { sTwo with handler := SState.End }).2
    (by decide) (by decide)

/-! ## C3 -/

/-- C3: `onConstructionMethodChanged` performs its effects in exactly this order:
recompute the slot count from the mode table for the handler's new construction
method, invoke the construction-method-changed hook, instruct the handler to
update its cursor, instruct the handler to reset, then replay the last recorded
raw pointer position through the handler's `mouseMove`.  The trace equality fixes
the order; the handler equation shows the replay acts on the reset handler (never
on the stale pre-reset state), and the `findIdx` inequality states explicitly
that the replay does not precede the reset. -/
theorem onConstructionMethodChanged_order (ops : ControllerOps H S Pos)
    (s : CState H Pos) :
    (onConstructionMethodChanged ops s).2 =
      [CtrlEvent.recomputeSlotCount (ops.modeSize (ops.constructionMethod s.handler)),
       CtrlEvent.hookConstructionMethodChanged, CtrlEvent.updateCursor,
       CtrlEvent.reset, CtrlEvent.mouseMove s.prevCursorPosition] ∧
    (onConstructionMethodChanged ops s).1.nOnViewParameter =
      ops.modeSize (ops.constructionMethod s.handler) ∧
    (onConstructionMethodChanged ops s).1.handler =
      ops.mouseMove (ops.reset (ops.updateCursor s.handler)) s.prevCursorPosition ∧
    (onConstructionMethodChanged ops s).2.findIdx isResetEvent <
      (onConstructionMethodChanged ops s).2.findIdx isMouseMoveEvent := by
  refine ⟨rfl, rfl, rfl, ?_⟩
  have h1 : (onConstructionMethodChanged ops s).2.findIdx isResetEvent = 3 := rfl
  have h2 : (onConstructionMethodChanged ops s).2.findIdx isMouseMoveEvent = 4 := rfl
  omega

/-! ## C6 -/

/-- C6: with the cached slot count set for mode `M`, after `resetControls` the
slot sequence has been rebuilt from scratch — it is exactly `modeSize M` fresh
labels, so the slot count equals the mode table's size for `M` — first-movement
tracking is cleared, and `resetControls` is idempotent. -/
theorem resetControls_rebuild (ops : ControllerOps H S Pos) (s : CState H Pos)
    (M : Nat) (hn : s.nOnViewParameter = ops.modeSize M) :
    (resetControls s).onViewParameters = List.replicate (ops.modeSize M) freshLabel ∧
    (resetControls s).onViewParameters.length = ops.modeSize M ∧
    (resetControls s).firstMoveInit = false ∧
    resetControls (resetControls s) = resetControls s := by
  refine ⟨?_, ?_, rfl, rfl⟩
  · simp [resetControls, resetOnViewParameters, initNOnViewParameters, hn]
  · simp [resetControls, resetOnViewParameters, initNOnViewParameters, hn]

/-- Witness for C6 at a concrete state whose cached slot count matches mode 0. -/
theorem resetControls_rebuild_witness :
    (resetControls sTwo).onViewParameters = List.replicate 2 freshLabel ∧
    (resetControls sTwo).firstMoveInit = false := by
  have h := resetControls_rebuild opsU sTwo 0 (by decide)
  exact ⟨h.1, h.2.2.1⟩

/-! ## Shared helper lemmas -/

/-- `setModeOnViewParameters` only rewrites the slot list and the focus token. -/
theorem setModeOnViewParameters_firstMoveInit (ops : ControllerOps H S Pos)
    (s : CState H Pos) :
    (setModeOnViewParameters ops s).firstMoveInit = s.firstMoveInit := rfl

/-- A `mouseMoved` call after the first movement leaves the state untouched and
performs no action. -/
theorem mouseMoved_of_moved (ops : ControllerOps H S Pos) (s : CState H Pos)
    (h : s.firstMoveInit = true) (p : Pos) :
    mouseMoved ops s p = (s, []) := by
  simp [mouseMoved, h]

/-- Iterating `mouseMoved` after the first movement is a no-op with no
first-movement branch activations. -/
theorem mouseMovedSeq_of_moved (ops : ControllerOps H S Pos) (s : CState H Pos)
    (h : s.firstMoveInit = true) (ps : List Pos) :
    mouseMovedSeq ops s ps = (s, 0) := by
  induction ps with
  | nil => rfl
  | cons p rest ih =>
    simp [mouseMovedSeq, mouseMoved_of_moved ops s h p, ih, isApplyModeEvent]

/-- `setFocusToOnViewParameter` does not write the cursor-position fields. -/
theorem setFocusToOnViewParameter_frame (s : CState H Pos) (i : Nat) :
    (setFocusToOnViewParameter s i).1.prevCursorPosition = s.prevCursorPosition ∧
    (setFocusToOnViewParameter s i).1.lastControlEnforcedPosition =
      s.lastControlEnforcedPosition := by
  unfold setFocusToOnViewParameter
  split <;> exact ⟨rfl, rfl⟩

/-- `mouseMoved` does not write the cursor-position fields. -/
theorem mouseMoved_frame (ops : ControllerOps H S Pos) (s : CState H Pos) (p : Pos) :
    (mouseMoved ops s p).1.prevCursorPosition = s.prevCursorPosition ∧
    (mouseMoved ops s p).1.lastControlEnforcedPosition =
      s.lastControlEnforcedPosition := by
  by_cases h : s.firstMoveInit = true
  · simp [mouseMoved, h]
  · have h' : s.firstMoveInit = false := by simpa using h
    simp [mouseMoved, h', setModeOnViewParameters]

/-- `finishControlsChanged` does not write the cursor-position fields. -/
theorem finishControlsChanged_frame (ops : ControllerOps H S Pos) (s : CState H Pos) :
    (finishControlsChanged ops s).1.prevCursorPosition = s.prevCursorPosition ∧
    (finishControlsChanged ops s).1.lastControlEnforcedPosition =
      s.lastControlEnforcedPosition := by
  unfold finishControlsChanged
  dsimp only
  split <;> exact ⟨rfl, rfl⟩

/-- `finishControlsChanged` does not move the focus token. -/
theorem finishControlsChanged_focus (ops : ControllerOps H S Pos) (s : CState H Pos) :
    (finishControlsChanged ops s).1.onViewIndexWithFocus = s.onViewIndexWithFocus := by
  unfold finishControlsChanged
  dsimp only
  split <;> rfl

/-- `onViewValueChanged` does not write the cursor-position fields. -/
theorem onViewValueChanged_frame (ops : ControllerOps H S Pos) (s : CState H Pos)
    (i : Nat) (v : Int) :
    (onViewValueChanged ops s i v).1.prevCursorPosition = s.prevCursorPosition ∧
    (onViewValueChanged ops s i v).1.lastControlEnforcedPosition =
      s.lastControlEnforcedPosition := by
  unfold onViewValueChanged
  by_cases hb : isOnViewParameterOfCurrentMode ops s (i + 1) = true
  · by_cases hr : i + 1 < s.onViewParameters.length
    · simpa [hb, setFocusToOnViewParameter, hr] using
        finishControlsChanged_frame ops _
    · simpa [hb, setFocusToOnViewParameter, hr] using
        finishControlsChanged_frame ops _
  · simpa [hb] using finishControlsChanged_frame ops _

/-- `passFocusToNextOnViewParameter` does not write the cursor-position fields. -/
theorem passFocusToNextOnViewParameter_frame (ops : ControllerOps H S Pos)
    (s : CState H Pos) :
    (passFocusToNextOnViewParameter ops s).1.prevCursorPosition =
      s.prevCursorPosition ∧
    (passFocusToNextOnViewParameter ops s).1.lastControlEnforcedPosition =
      s.lastControlEnforcedPosition := by
  unfold passFocusToNextOnViewParameter
  dsimp only
  split
  · exact setFocusToOnViewParameter_frame _ _
  · exact ⟨rfl, rfl⟩

/-- `afterHandlerModeChanged` does not write the cursor-position fields. -/
theorem afterHandlerModeChanged_frame (ops : ControllerOps H S Pos)
    (s : CState H Pos) :
    (afterHandlerModeChanged ops s).1.prevCursorPosition = s.prevCursorPosition ∧
    (afterHandlerModeChanged ops s).1.lastControlEnforcedPosition =
      s.lastControlEnforcedPosition := by
  unfold afterHandlerModeChanged
  split <;> exact ⟨rfl, rfl⟩

/-! ## C8 -/

/-- C8: for every sequence of repeated `mouseMoved` calls with no intervening
reset or mode change, the first-movement branch (re-applying mode-based
activation via `setModeOnViewParameters`) runs exactly once — on the first call,
which also marks first-movement as done — and every call on a state whose
first-movement flag is already set is a complete no-op (state unchanged, no
branch activation), so the marking is idempotent until a reset clears it. -/
theorem mouseMoved_first_branch_once (ops : ControllerOps H S Pos)
    (s : CState H Pos) (ps : List Pos) (hf : s.firstMoveInit = false) :
    (mouseMovedSeq ops s ps).2 = (if ps.isEmpty then 0 else 1) ∧
    (∀ p : Pos, (mouseMoved ops s p).2 = [CtrlEvent.applyModeActivation] ∧
      (mouseMoved ops s p).1 =
        { setModeOnViewParameters ops s with firstMoveInit := true }) ∧
    (∀ s' : CState H Pos, s'.firstMoveInit = true → ∀ p : Pos,
      mouseMoved ops s' p = (s', [])) := by
  have hfirst : ∀ p : Pos, mouseMoved ops s p =
      ({ setModeOnViewParameters ops s with firstMoveInit := true },
       [CtrlEvent.applyModeActivation]) := by
    intro p
    simp [mouseMoved, hf, setModeOnViewParameters_firstMoveInit]
  refine ⟨?_, fun p => ⟨by rw [hfirst p], by rw [hfirst p]⟩,
    fun s' h p => mouseMoved_of_moved ops s' h p⟩
  cases ps with
  | nil => rfl
  | cons p rest =>
    have hmoved : ({ setModeOnViewParameters ops s with
        firstMoveInit := true } : CState H Pos).firstMoveInit = true := rfl
    simp [mouseMovedSeq, hfirst p, mouseMovedSeq_of_moved ops _ hmoved rest,
      isApplyModeEvent]

/-- Witness for C8: two consecutive movements from a fresh-session state trigger
the first-movement branch exactly once. -/
theorem mouseMoved_first_branch_once_witness :
    (mouseMovedSeq opsU { sTwo with firstMoveInit := false }
      [((1 : Int), (1 : Int)), ((2 : Int), (2 : Int))]).2 = 1 := by
  have h := mouseMoved_first_branch_once opsU { sTwo with firstMoveInit := false }
    [((1 : Int), (1 : Int)), ((2 : Int), (2 : Int))] (by decide)
  simpa using h.1

/-! ## C7 -/

/-- C7: `prevCursorPosition` and `lastControlEnforcedPosition` are written only by
`enforceControlParameters`: every invocation records the incoming raw position in
`prevCursorPosition`, records the (possibly hook-rewritten) position in
`lastControlEnforcedPosition`, and then — exactly the default
`afterEnforceControlParameters` — restores keyboard focus through
`setFocusToOnViewParameter` at the tracked focus index when one is tracked
(`onViewIndexWithFocus ≥ 0`), and otherwise stops; and every other controller
operation leaves both fields unchanged. -/
theorem enforceControlParameters_owns_positions (ops : ControllerOps H S Pos)
    (s : CState H Pos) (pos : Pos) :
    (enforceControlParameters ops s pos).1.prevCursorPosition = pos ∧
    (enforceControlParameters ops s pos).1.lastControlEnforcedPosition =
      ops.doEnforceControlParameters pos ∧
    (0 ≤ s.onViewIndexWithFocus →
      enforceControlParameters ops s pos =
        setFocusToOnViewParameter
          { s with
            prevCursorPosition := pos
            lastControlEnforcedPosition := ops.doEnforceControlParameters pos }
          s.onViewIndexWithFocus.toNat) ∧
    (s.onViewIndexWithFocus < 0 →
      enforceControlParameters ops s pos =
        ({ s with
           prevCursorPosition := pos
           lastControlEnforcedPosition := ops.doEnforceControlParameters pos }, [])) ∧
    (resetControls s).prevCursorPosition = s.prevCursorPosition ∧
    (resetControls s).lastControlEnforcedPosition = s.lastControlEnforcedPosition ∧
    (initControls s).prevCursorPosition = s.prevCursorPosition ∧
    (initControls s).lastControlEnforcedPosition = s.lastControlEnforcedPosition ∧
    (∀ p : Pos, (mouseMoved ops s p).1.prevCursorPosition = s.prevCursorPosition ∧
      (mouseMoved ops s p).1.lastControlEnforcedPosition =
        s.lastControlEnforcedPosition) ∧
    (onConstructionMethodChanged ops s).1.prevCursorPosition =
      s.prevCursorPosition ∧
    (onConstructionMethodChanged ops s).1.lastControlEnforcedPosition =
      s.lastControlEnforcedPosition ∧
    (∀ i : Nat, ∀ v : Int,
      (onViewValueChanged ops s i v).1.prevCursorPosition = s.prevCursorPosition ∧
      (onViewValueChanged ops s i v).1.lastControlEnforcedPosition =
        s.lastControlEnforcedPosition) ∧
    (setModeOnViewParameters ops s).prevCursorPosition = s.prevCursorPosition ∧
    (setModeOnViewParameters ops s).lastControlEnforcedPosition =
      s.lastControlEnforcedPosition ∧
    (∀ i : Nat,
      (setFocusToOnViewParameter s i).1.prevCursorPosition = s.prevCursorPosition ∧
      (setFocusToOnViewParameter s i).1.lastControlEnforcedPosition =
        s.lastControlEnforcedPosition) ∧
    (passFocusToNextOnViewParameter ops s).1.prevCursorPosition =
      s.prevCursorPosition ∧
    (passFocusToNextOnViewParameter ops s).1.lastControlEnforcedPosition =
      s.lastControlEnforcedPosition ∧
    (onHandlerModeChanged ops s).prevCursorPosition = s.prevCursorPosition ∧
    (onHandlerModeChanged ops s).lastControlEnforcedPosition =
      s.lastControlEnforcedPosition ∧
    (afterHandlerModeChanged ops s).1.prevCursorPosition = s.prevCursorPosition ∧
    (afterHandlerModeChanged ops s).1.lastControlEnforcedPosition =
      s.lastControlEnforcedPosition ∧
    (finishControlsChanged ops s).1.prevCursorPosition = s.prevCursorPosition ∧
    (finishControlsChanged ops s).1.lastControlEnforcedPosition =
      s.lastControlEnforcedPosition := by
  refine ⟨?_, ?_, ?_, ?_, rfl, rfl, rfl, rfl, fun p => mouseMoved_frame ops s p,
    rfl, rfl, fun i v => onViewValueChanged_frame ops s i v, rfl, rfl,
    fun i => setFocusToOnViewParameter_frame s i,
    (passFocusToNextOnViewParameter_frame ops s).1,
    (passFocusToNextOnViewParameter_frame ops s).2, rfl, rfl,
    (afterHandlerModeChanged_frame ops s).1,
    (afterHandlerModeChanged_frame ops s).2,
    (finishControlsChanged_frame ops s).1,
    (finishControlsChanged_frame ops s).2⟩
  · unfold enforceControlParameters
    dsimp only
    split
    · exact (setFocusToOnViewParameter_frame _ _).1
    · rfl
  · unfold enforceControlParameters
    dsimp only
    split
    · exact (setFocusToOnViewParameter_frame _ _).2
    · rfl
  · intro h
    unfold enforceControlParameters
    dsimp only
    rw [if_pos h]
  · intro h
    have h' : ¬ (0 ≤ s.onViewIndexWithFocus) := by omega
    unfold enforceControlParameters
    dsimp only
    rw [if_neg h']

/-- Witness for C7: concrete invocation with a tracked focus index. -/
theorem enforceControlParameters_owns_positions_witness :
    (enforceControlParameters opsU sTwo ((7 : Int), (8 : Int))).1.prevCursorPosition
      = ((7 : Int), (8 : Int)) ∧
    enforceControlParameters opsU sTwo ((7 : Int), (8 : Int)) =
      setFocusToOnViewParameter
        { sTwo with
          prevCursorPosition := ((7 : Int), (8 : Int))
          lastControlEnforcedPosition := ((7 : Int), (8 : Int)) } 0 := by
  have h := enforceControlParameters_owns_positions opsU sTwo ((7 : Int), (8 : Int))
  exact ⟨h.1, h.2.2.1 (by decide)⟩

/-! ## C1 -/

/-- C1 counterexample: in a two-slot state whose slots all belong to the current
construction state (default `getState`), committing a value in slot 0 — a slot of
the current construction state — leaves the focus token on slot 1, not on the
edited slot 0: the code tests and focuses `onviewparameterindex + 1`, the slot
after the edited one. -/
theorem onViewValueChanged_focus_counterexample :
    isOnViewParameterOfCurrentMode opsU sTwo 0 = true ∧
    (onViewValueChanged opsU sTwo 0 5).1.onViewIndexWithFocus = 1 ∧
    ¬ (onViewValueChanged opsU sTwo 0 5).1.onViewIndexWithFocus = 0 := by
  decide

/-- C1 (amended): when `onViewValueChanged(i, v)` is invoked, the focus step tests
slot `i + 1`, not the edited slot: if slot `i + 1` belongs to the handler's
current construction state the focus token is assigned to slot `i + 1` (the slot
after the edited one), and otherwise the focus token is left unchanged; nothing
later in the call moves it. -/
theorem onViewValueChanged_focus_next (ops : ControllerOps H S Pos)
    (s : CState H Pos) (i : Nat) (v : Int) :
    (isOnViewParameterOfCurrentMode ops s (i + 1) = true →
      (onViewValueChanged ops s i v).1.onViewIndexWithFocus = ((i + 1 : Nat) : Int)) ∧
    (isOnViewParameterOfCurrentMode ops s (i + 1) = false →
      (onViewValueChanged ops s i v).1.onViewIndexWithFocus =
        s.onViewIndexWithFocus) := by
  constructor
  · intro hb
    have hr : i + 1 < s.onViewParameters.length := by
      unfold isOnViewParameterOfCurrentMode at hb
      exact of_decide_eq_true ((Bool.and_eq_true _ _).mp hb).1
    unfold onViewValueChanged
    dsimp only
    rw [if_pos hb, finishControlsChanged_focus]
    unfold setFocusToOnViewParameter
    dsimp only
    rw [if_pos hr]
  · intro hb
    have hb' : ¬ isOnViewParameterOfCurrentMode ops s (i + 1) = true := by simp [hb]
    unfold onViewValueChanged
    dsimp only
    rw [if_neg hb', finishControlsChanged_focus]

/-- Witness for the amended C1 at a concrete input where slot `i + 1` is of the
current construction state. -/
theorem onViewValueChanged_focus_next_witness :
    (onViewValueChanged opsU sThree 1 5).1.onViewIndexWithFocus = ((2 : Nat) : Int) :=
  (onViewValueChanged_focus_next opsU sThree 1 5).1 (by decide)

/-! ## C2 -/

/-- Handler state after the `adaptDrawingToOnViewParameterChange` hook inside
`onViewValueChanged` (the focus step does not touch the handler). -/
def handlerAfterAdapt (ops : ControllerOps H S Pos) (s : CState H Pos) (i : Nat)
    (v : Int) : H :=
  ops.adaptDrawingToOnViewParameterChange s.handler i v

/-- Handler state observed right after step 1 of the finish routine — the
unconditional replay — inside `onViewValueChanged`; this is where the code takes
its `currentstate` snapshot. -/
def handlerAfterFirstReplay (ops : ControllerOps H S Pos) (s : CState H Pos)
    (i : Nat) (v : Int) : H :=
  ops.mouseMove (handlerAfterAdapt ops s i v) s.prevCursorPosition

/-- Handler state after steps 2 and 3 of the finish routine (preselection and the
mode-transition hook) inside `onViewValueChanged`. -/
def handlerAfterHook (ops : ControllerOps H S Pos) (s : CState H Pos) (i : Nat)
    (v : Int) : H :=
  ops.doChangeDrawSketchHandlerMode
    (ops.preselectAtPoint (handlerAfterFirstReplay ops s i v)
      s.lastControlEnforcedPosition)

/-- The condition under which the finish routine performs its second replay, as
evaluated inside `onViewValueChanged`: the handler is not in its last state, its
state after steps 2–3 differs from the snapshot taken after step 1, and the
first movement has happened. -/
def secondReplayCond (ops : ControllerOps H S Pos) (s : CState H Pos) (i : Nat)
    (v : Int) : Bool :=
  !ops.isLastState (handlerAfterHook ops s i v)
    && decide (ops.state (handlerAfterHook ops s i v) ≠
         ops.state (handlerAfterFirstReplay ops s i v))
    && s.firstMoveInit

/-- Trace characterisation of `onViewValueChanged`: an optional focus grab,
then the fixed finish sequence, then the conditional second replay. -/
theorem onViewValueChanged_trace_eq (ops : ControllerOps H S Pos)
    (s : CState H Pos) (i : Nat) (v : Int) :
    (onViewValueChanged ops s i v).2 =
      (if isOnViewParameterOfCurrentMode ops s (i + 1) then
        [CtrlEvent.setFocusToSpinbox (i + 1)] else []) ++
      ([CtrlEvent.mouseMove s.prevCursorPosition,
        CtrlEvent.preselectAtPoint s.lastControlEnforcedPosition,
        CtrlEvent.hookChangeDSHMode] ++
       (if secondReplayCond ops s i v then
         [CtrlEvent.mouseMove s.prevCursorPosition] else [])) := by
  by_cases hb : isOnViewParameterOfCurrentMode ops s (i + 1) = true
  · have hr : i + 1 < s.onViewParameters.length := by
      unfold isOnViewParameterOfCurrentMode at hb
      exact of_decide_eq_true ((Bool.and_eq_true _ _).mp hb).1
    simp [onViewValueChanged, finishControlsChanged, setFocusToOnViewParameter,
      hb, hr, secondReplayCond, handlerAfterHook, handlerAfterFirstReplay,
      handlerAfterAdapt]
    split <;> simp
  · have hb' : isOnViewParameterOfCurrentMode ops s (i + 1) = false := by
      simpa using hb
    simp [onViewValueChanged, finishControlsChanged, hb', secondReplayCond,
      handlerAfterHook, handlerAfterFirstReplay, handlerAfterAdapt]
    split <;> simp

/-- C2 counterexample: a handler whose `mouseMove` advances the construction
state.  Over the whole `onViewValueChanged` call the construction state changed
(as a result of step 1, the first replay), the handler is not terminal, and a
movement had already occurred, yet only one `mouseMove` replay happens — the
code compares against the state snapshot taken after step 1, not before it, so
the claimed "exactly when" equivalence fails. -/
theorem onViewValueChanged_replay_counterexample :
    opsA.state (onViewValueChanged opsA sTwo 0 5).1.handler ≠
      opsA.state sTwo.handler ∧
    opsA.isLastState (onViewValueChanged opsA sTwo 0 5).1.handler = false ∧
    sTwo.firstMoveInit = true ∧
    countMouseMove (onViewValueChanged opsA sTwo 0 5).2 = 1 := by
  decide

/-- C2 (amended): every `onViewValueChanged` invocation drives the finish routine
in the order first replay (`mouseMove` at the last raw position), then
`preselectAtPoint` at the last enforced position, then the mode-transition hook;
it performs at most two `mouseMove` replays, and the second replay happens
exactly when the construction state observed after steps 2–3 differs from the
snapshot taken right after the first replay (step 1), the handler is not in the
terminal state, and at least one movement has already occurred. -/
theorem onViewValueChanged_replay_spec (ops : ControllerOps H S Pos)
    (s : CState H Pos) (i : Nat) (v : Int) :
    countMouseMove (onViewValueChanged ops s i v).2 ≤ 2 ∧
    ((onViewValueChanged ops s i v).2.filter isFinishHandlerCall =
       [CtrlEvent.mouseMove s.prevCursorPosition,
        CtrlEvent.preselectAtPoint s.lastControlEnforcedPosition,
        CtrlEvent.hookChangeDSHMode] ∨
     (onViewValueChanged ops s i v).2.filter isFinishHandlerCall =
       [CtrlEvent.mouseMove s.prevCursorPosition,
        CtrlEvent.preselectAtPoint s.lastControlEnforcedPosition,
        CtrlEvent.hookChangeDSHMode,
        CtrlEvent.mouseMove s.prevCursorPosition]) ∧
    (countMouseMove (onViewValueChanged ops s i v).2 = 2 ↔
      (ops.isLastState (handlerAfterHook ops s i v) = false ∧
       ops.state (handlerAfterHook ops s i v) ≠
         ops.state (handlerAfterFirstReplay ops s i v) ∧
       s.firstMoveInit = true)) := by
  have htr := onViewValueChanged_trace_eq ops s i v
  by_cases hc : secondReplayCond ops s i v = true
  · have hrhs : ops.isLastState (handlerAfterHook ops s i v) = false ∧
        ops.state (handlerAfterHook ops s i v) ≠
          ops.state (handlerAfterFirstReplay ops s i v) ∧
        s.firstMoveInit = true := by
      have := hc
      simp only [secondReplayCond, Bool.and_eq_true, Bool.not_eq_true',
        decide_eq_true_eq] at this
      exact ⟨this.1.1, this.1.2, this.2⟩
    by_cases hb : isOnViewParameterOfCurrentMode ops s (i + 1) = true <;>
      simp [htr, hb, hc, countMouseMove, isMouseMoveEvent, isFinishHandlerCall,
        hrhs]
  · have hc' : secondReplayCond ops s i v = false := by simpa using hc
    have hrhs : ¬ (ops.isLastState (handlerAfterHook ops s i v) = false ∧
        ops.state (handlerAfterHook ops s i v) ≠
          ops.state (handlerAfterFirstReplay ops s i v) ∧
        s.firstMoveInit = true) := by
      intro hconj
      have : secondReplayCond ops s i v = true := by
        simp only [secondReplayCond, Bool.and_eq_true, Bool.not_eq_true',
          decide_eq_true_eq]
        exact ⟨⟨hconj.1, hconj.2.1⟩, hconj.2.2⟩
      simp [this] at hc'
    by_cases hb : isOnViewParameterOfCurrentMode ops s (i + 1) = true <;>
      simp [htr, hb, hc', countMouseMove, isMouseMoveEvent, isFinishHandlerCall,
        hrhs]

/-! ## C4 -/

/-- The per-slot effect of one `setModeOnViewParameters` loop iteration. -/
def slotTransform (belongs : Nat → Bool) (deactAll : Bool) (i : Nat) (l : Label) :
    Label :=
  if belongs i then startEditZero (setPointsZero (activateLbl l))
  else
    let l1 := stopEditLbl l
    if !l1.core.isSet || deactAll then deactivateLbl l1 else l1

/-- The loop preserves the slot count. -/
theorem setModeLoop_length (belongs : Nat → Bool) (deactAll : Bool) :
    ∀ (lbls : List Label) (i : Nat) (focus : Int) (fm : Bool),
      (setModeLoop belongs deactAll i lbls focus fm).1.length = lbls.length := by
  intro lbls
  induction lbls with
  | nil => intro i focus fm; rfl
  | cons l rest ih =>
    intro i focus fm
    by_cases hb : belongs i = true
    · simp [setModeLoop, hb, ih]
    · simp [setModeLoop, hb, ih]

/-- Each slot of the loop's output is the per-slot transform of the input slot. -/
theorem setModeLoop_getD (belongs : Nat → Bool) (deactAll : Bool) :
    ∀ (lbls : List Label) (i : Nat) (focus : Int) (fm : Bool) (j : Nat),
      j < lbls.length →
      (setModeLoop belongs deactAll i lbls focus fm).1.getD j freshLabel =
        slotTransform belongs deactAll (i + j) (lbls.getD j freshLabel) := by
  intro lbls
  induction lbls with
  | nil => intro i focus fm j h; exact absurd h (by simp)
  | cons l rest ih =>
    intro i focus fm j hj
    by_cases hb : belongs i = true
    · cases j with
      | zero =>
        simp [setModeLoop, hb, slotTransform]
      | succ j' =>
        have hj' : j' < rest.length := by simpa using hj
        have harith : i + (j' + 1) = (i + 1) + j' := by omega
        simp only [setModeLoop, hb, if_true, List.getD_cons_succ, harith]
        exact ih (i + 1) _ false j' hj'
    · cases j with
      | zero =>
        simp [setModeLoop, hb, slotTransform]
      | succ j' =>
        have hj' : j' < rest.length := by simpa using hj
        have harith : i + (j' + 1) = (i + 1) + j' := by omega
        simp only [setModeLoop, hb, if_false, Bool.false_eq_true,
          List.getD_cons_succ, harith]
        exact ih (i + 1) _ fm j' hj'

/-- Once the first matching slot has been seen (`firstOfMode` is false), the
focus accumulator is final. -/
theorem setModeLoop_focus_false (belongs : Nat → Bool) (deactAll : Bool) :
    ∀ (lbls : List Label) (i : Nat) (focus : Int),
      (setModeLoop belongs deactAll i lbls focus false).2 = focus := by
  intro lbls
  induction lbls with
  | nil => intro i focus; rfl
  | cons l rest ih =>
    intro i focus
    by_cases hb : belongs i = true
    · simp [setModeLoop, hb, ih]
    · simp [setModeLoop, hb, ih]

/-- With `firstOfMode` still true, the loop's focus output is the first index in
the scanned range that belongs to the current state, or the accumulator. -/
theorem setModeLoop_focus_first (belongs : Nat → Bool) (deactAll : Bool) :
    ∀ (lbls : List Label) (i : Nat) (focus : Int),
      (setModeLoop belongs deactAll i lbls focus true).2 =
        (match (List.range' i lbls.length).find? belongs with
         | some k => (k : Int)
         | none => focus) := by
  intro lbls
  induction lbls with
  | nil => intro i focus; simp [setModeLoop]
  | cons l rest ih =>
    intro i focus
    rw [List.length_cons, List.range'_succ]
    by_cases hb : belongs i = true
    · rw [List.find?_cons_of_pos _ hb]
      simp [setModeLoop, hb, setModeLoop_focus_false]
    · have hb' : belongs i = false := by simpa using hb
      rw [List.find?_cons_of_neg _ (by simp [hb'])]
      simp only [setModeLoop, hb', Bool.false_eq_true, if_false]
      exact ih (i + 1) focus

/-- C4: after `setModeOnViewParameters`, the slot count is unchanged; every slot
not of the current construction state has its edit stopped and, unless it holds
an explicitly set value with the handler not in the terminal `End` state, is
deactivated; every slot of the current state is activated, has its anchor points
reset, and has editing restarted with value zero; and the focus token is the
lowest index among slots of the current state, or `-1` (unset) when there is
none — the token is a single index, so at most one slot ever holds it. -/
theorem setModeOnViewParameters_spec (ops : ControllerOps H S Pos)
    (s : CState H Pos) :
    (setModeOnViewParameters ops s).onViewParameters.length =
      s.onViewParameters.length ∧
    (∀ i : Nat, i < s.onViewParameters.length →
      (isOnViewParameterOfCurrentMode ops s i = false →
        (slotAt (setModeOnViewParameters ops s) i).core.isInEdit = false ∧
        ((slotAt s i).core.isSet = false ∨ ops.state s.handler = ops.endState →
          (slotAt (setModeOnViewParameters ops s) i).core.isActive = false)) ∧
      (isOnViewParameterOfCurrentMode ops s i = true →
        (slotAt (setModeOnViewParameters ops s) i).core.isActive = true ∧
        (slotAt (setModeOnViewParameters ops s) i).core.points =
          ((0, 0, 0), (0, 0, 0)) ∧
        (slotAt (setModeOnViewParameters ops s) i).core.isInEdit = true ∧
        (slotAt (setModeOnViewParameters ops s) i).core.editValue = 0)) ∧
    (setModeOnViewParameters ops s).onViewIndexWithFocus =
      (match (List.range s.onViewParameters.length).find?
          (fun i => isOnViewParameterOfCurrentMode ops s i) with
       | some k => (k : Int)
       | none => -1) := by
  refine ⟨?_, ?_, ?_⟩
  · exact setModeLoop_length _ _ s.onViewParameters 0 (-1) true
  · intro i hi
    have hg := setModeLoop_getD (fun j => isOnViewParameterOfCurrentMode ops s j)
      (decide (ops.state s.handler = ops.endState)) s.onViewParameters 0 (-1) true
      i hi
    simp only [Nat.zero_add] at hg
    constructor
    · intro hb
      have hgt : slotAt (setModeOnViewParameters ops s) i =
          slotTransform (fun j => isOnViewParameterOfCurrentMode ops s j)
            (decide (ops.state s.handler = ops.endState)) i
            (s.onViewParameters.getD i freshLabel) := hg
      rw [hgt]
      unfold slotTransform
      rw [if_neg (by simp [hb])]
      constructor
      · dsimp only
        split <;> rfl
      · intro hcase
        have hcond : (!(stopEditLbl (s.onViewParameters.getD i freshLabel)).core.isSet
            || decide (ops.state s.handler = ops.endState)) = true := by
          rcases hcase with h | h
          · have hset : (stopEditLbl
                (s.onViewParameters.getD i freshLabel)).core.isSet = false := h
            rw [hset]
            rfl
          · rw [decide_eq_true h]
            simp
        dsimp only
        rw [if_pos hcond]
        rfl
    · intro hb
      have hgt : slotAt (setModeOnViewParameters ops s) i =
          slotTransform (fun j => isOnViewParameterOfCurrentMode ops s j)
            (decide (ops.state s.handler = ops.endState)) i
            (s.onViewParameters.getD i freshLabel) := hg
      rw [hgt]
      unfold slotTransform
      rw [if_pos (by simp [hb])]
      exact ⟨rfl, rfl, rfl, rfl⟩
  · have hf := setModeLoop_focus_first (fun j => isOnViewParameterOfCurrentMode ops s j)
      (decide (ops.state s.handler = ops.endState)) s.onViewParameters 0 (-1)
    rw [List.range_eq_range' s.onViewParameters.length]
    exact hf

/-- Witness for C4 on a concrete state with one slot of the current state and one
slot outside it. -/
theorem setModeOnViewParameters_spec_witness :
    (slotAt (setModeOnViewParameters opsNU sTwo) 0).core.isInEdit = true ∧
    (slotAt (setModeOnViewParameters opsNU sTwo) 1).core.isActive = false ∧
    (setModeOnViewParameters opsNU sTwo).onViewIndexWithFocus = 0 := by
  have h := setModeOnViewParameters_spec opsNU sTwo
  refine ⟨(h.2.1 0 (by decide)).2 (by decide) |>.2.2.1, ?_, ?_⟩
  · exact ((h.2.1 1 (by decide)).1 (by decide)).2 (Or.inl (by decide))
  · rw [h.2.2]; decide

/-! ## C5 -/

/-- C5 counterexample: three slots, slot 0 of the current construction state and
slots 1–2 outside it, focus on slot 1.  A circular advance would move the focus
to slot 0 (the next belonging slot, wrapping past the last index), but the scan
only wraps when its start index is already past the end, so the focus stays
at 1. -/
theorem passFocusToNextOnViewParameter_counterexample :
    isOnViewParameterOfCurrentMode opsNU sThree 0 = true ∧
    sThree.onViewIndexWithFocus = 1 ∧
    (passFocusToNextOnViewParameter opsNU sThree).1.onViewIndexWithFocus = 1 := by
  decide

/-- Start index of the `passFocusToNextOnViewParameter` scan:
`onViewIndexWithFocus + 1` as an unsigned index, reset to `0` when already past
the last slot. -/
def passFocusStartIndex (s : CState H Pos) : Nat :=
  let index0 := (s.onViewIndexWithFocus + 1).toNat
  if index0 ≥ s.onViewParameters.length then 0 else index0

/-- `passFocusToNextOnViewParameter` as a single scan from the start index. -/
theorem passFocusToNextOnViewParameter_eq (ops : ControllerOps H S Pos)
    (s : CState H Pos) :
    passFocusToNextOnViewParameter ops s =
      (match passFocusScan (fun j => isOnViewParameterOfCurrentMode ops s j)
          s.onViewParameters.length (passFocusStartIndex s) with
       | some j => setFocusToOnViewParameter s j
       | none => (s, [])) := rfl

/-- The scan body is the first match in the forward range it visits. -/
theorem passFocusScanGo_eq_find (belongs : Nat → Bool) :
    ∀ (n index : Nat),
      passFocusScanGo belongs n index = (List.range' index n).find? belongs := by
  intro n
  induction n with
  | zero => intro index; rfl
  | succ m ih =>
    intro index
    rw [List.range'_succ]
    by_cases hb : belongs index = true
    · rw [List.find?_cons_of_pos _ hb]
      simp [passFocusScanGo, hb]
    · have hb' : belongs index = false := by simpa using hb
      rw [List.find?_cons_of_neg _ (by simp [hb'])]
      simp only [passFocusScanGo, hb', Bool.false_eq_true, if_false]
      exact ih (index + 1)

/-- The scan is the first match in the forward range from the start index. -/
theorem passFocusScan_eq_find (belongs : Nat → Bool) (len index : Nat) :
    passFocusScan belongs len index =
      (List.range' index (len - index)).find? belongs :=
  passFocusScanGo_eq_find belongs (len - index) index

/-- C5 (amended): `passFocusToNextOnViewParameter` advances the focus token to
the first slot at index at least the start index (`focus + 1`, reset to `0` only
when `focus + 1` is already past the last slot) that belongs to the current
construction state; the scan never wraps past the end a second time, so slots
below the start index are not revisited; when the scan finds no slot the focus
is unchanged.  In the claim's scenario — three slots all of the current state —
focus 1 advances to 2 and a second call wraps to 0. -/
theorem passFocusToNextOnViewParameter_spec (ops : ControllerOps H S Pos)
    (s : CState H Pos) :
    ((passFocusToNextOnViewParameter ops s).1.onViewIndexWithFocus =
      (match (List.range' (passFocusStartIndex s)
          (s.onViewParameters.length - passFocusStartIndex s)).find?
          (fun j => isOnViewParameterOfCurrentMode ops s j) with
       | some j => (j : Int)
       | none => s.onViewIndexWithFocus)) ∧
    (passFocusToNextOnViewParameter opsU sThree).1.onViewIndexWithFocus = 2 ∧
    (passFocusToNextOnViewParameter opsU
      (passFocusToNextOnViewParameter opsU sThree).1).1.onViewIndexWithFocus = 0 := by
  refine ⟨?_, by decide, by decide⟩
  rw [passFocusToNextOnViewParameter_eq,
    passFocusScan_eq_find (fun j => isOnViewParameterOfCurrentMode ops s j)
      s.onViewParameters.length (passFocusStartIndex s)]
  cases hfind : (List.range' (passFocusStartIndex s)
      (s.onViewParameters.length - passFocusStartIndex s)).find?
      (fun j => isOnViewParameterOfCurrentMode ops s j) with
  | none => rfl
  | some j =>
    have hbel : isOnViewParameterOfCurrentMode ops s j = true :=
      List.find?_some hfind
    have hj : j < s.onViewParameters.length := by
      unfold isOnViewParameterOfCurrentMode at hbel
      exact of_decide_eq_true ((Bool.and_eq_true _ _).mp hbel).1
    simp [setFocusToOnViewParameter, hj]

end DrawSketchControllerModel
